import Mathlib

/-!
Shallow embedding of the two-level instance/execution bookkeeping of
`kerastuner/engine/execution.py` and `kerastuner/engine/instance.py`.

Modelling conventions:
* Python float metric values are modelled as rationals (`ℚ`).
* Python dicts are modelled as insertion-ordered association lists over
  `String` keys; `alookup` is dict lookup, `updD` is dict update (with a
  default for the `defaultdict` pattern).
* Python exceptions are modelled with `Except PyError`; the constructors of
  `PyError` name the concrete Python exception class that is raised.
* External collaborators (the Keras training entry points, artifact
  persistence, file writes, console printing) are outside this core, per the
  source's imports; a training dispatch is reified as a `TrainingCall` value
  recording exactly which entry point is invoked and with which arguments,
  and the trained history is supplied by an oracle `train : TrainingCall →
  KerasHistory`.
-/

namespace KerasTuner

/-- Python exception outcomes that the embedded code can produce. -/
inductive PyError : Type
  /-- `UnboundLocalError`: a local variable (here `results`) is read before
  assignment, as happens at `return results` in `InstanceExecution.fit` when
  `keras_function` matches neither branch. -/
  | unboundLocal
  /-- `AttributeError`: reading a never-assigned attribute (here
  `self.model_name` in the TensorBoard log-dir patching). -/
  | attributeError
  /-- `ValueError`: Python `min()`/`max()` of an empty sequence. -/
  | valueError
  /-- `TypeError`: a keyword argument passed twice (here `initial_epoch` in
  the resume branch of `Instance.fit`). -/
  | typeError
  deriving DecidableEq

abbrev Metric := String

/-- Python dict lookup on an insertion-ordered association list. -/
def alookup {β : Type} (d : List (String × β)) (k : String) : Option β :=
  match d with
  | [] => none
  | (k', v) :: rest => if k' = k then some v else alookup rest k

/-- Python dict update `d[k] = f(d.get(k, d0))`, appending a new key at the
end when absent (dict insertion order); models the `defaultdict` pattern. -/
def updD {β : Type} (d : List (String × β)) (k : String) (d0 : β) (f : β → β) :
    List (String × β) :=
  match d with
  | [] => [(k, f d0)]
  | (k', v) :: rest => if k' = k then (k', f v) :: rest else (k', v) :: updD rest k d0 f

/-- The `.history` mapping of a Keras `History` object: metric name →
per-epoch value sequence. -/
structure KerasHistory where
  history : List (Metric × List ℚ)

/-- A Keras callback object, as far as `InstanceExecution.fit` inspects it:
whether `'TensorBoard' in str(type(callback))`, its `log_dir` attribute, and
an opaque identity tag. -/
structure Callback where
  tensorboard_like : Bool
  log_dir : String
  tag : Nat
  deriving DecidableEq

/-- The keyword arguments of `fit` that this layer reads or writes.
`callbacks = []` covers both an absent and an empty (falsy) callbacks list,
which Python treats identically here. -/
structure Kwargs where
  callbacks : List Callback
  initial_epoch : Option Int
  validation_data : Option (Nat × List Nat)
  deriving DecidableEq

/-- The results-recording `TunerCallback(self.instance_info, self.key_metrics,
self.meta_data)` appended to every training run; its type string does not
contain `'TensorBoard'`. -/
def tunerCallback : Callback :=
  { tensorboard_like := false, log_dir := "", tag := 0 }

/-- One concrete invocation of a Keras training entry point:
`self.model.fit(x, y, **kwargs)` when `generator_mode = false`, or
`self.model.fit_generator(x, **kwargs)` when `generator_mode = true`
(in which case `y` is dropped: `y = none`). `exec_idx`/`exec_ts` identify the
execution whose model is trained. -/
structure TrainingCall where
  generator_mode : Bool
  exec_idx : Nat
  exec_ts : Nat
  x : Nat
  y : Option (List Nat)
  callbacks : List Callback
  initial_epoch : Option Int
  validation_data : Option (Nat × List Nat)
  deriving DecidableEq

/-- The state of an `InstanceExecution` object, restricted to the fields the
claims touch. `model_name` is an `Option` because `__init__` never assigns
`self.model_name`: it is `none` for every execution this code constructs, and
reading it raises `AttributeError`. -/
structure ExecState where
  ts : Nat
  idx : Nat
  keras_function : String
  model_name : Option String
  num_epochs : Int
  history : List (Metric × List ℚ)
  metrics : List (Metric × (ℚ × ℚ))
  deriving DecidableEq

/-- `InstanceExecution.__init__`: stamps the current time, stores `idx` and
`keras_function`, sets `num_epochs = -1`; `history` and `metrics` are absent
until `record_results`, and `model_name` is never assigned. -/
def mkInstanceExecution (idx ts : Nat) (keras_function : String) : ExecState :=
  { ts := ts, idx := idx, keras_function := keras_function, model_name := none,
    num_epochs := -1, history := [], metrics := [] }

/-- `os.path.join` for the log-dir rewrite. -/
def pathJoin (a b : String) : String := a ++ "/" ++ b

/-- The body of the callback-patching loop for one callback: if
`'TensorBoard' in str(type(callback))`, compute
`tensorboard_idx = "%s-%s-%s" % (self.model_name, self.idx, self.ts)` —
which reads the never-assigned `self.model_name` and raises
`AttributeError` — and set `callback.log_dir = path.join(callback.log_dir,
tensorboard_idx)`. -/
def patchCallback (model_name : Option String) (idx ts : Nat) (cb : Callback) :
    Except PyError Callback :=
  if cb.tensorboard_like then
    match model_name with
    | none => .error .attributeError
    | some nm =>
        .ok { cb with
              log_dir := pathJoin cb.log_dir
                (nm ++ "-" ++ toString idx ++ "-" ++ toString ts) }
  else .ok cb

/-- The `for callback in callbacks:` patching loop of
`InstanceExecution.fit`, over the deep-copied caller callbacks, in order;
the first TensorBoard-like callback raises (see `patchCallback`). -/
def patchCallbacks (mn : Option String) (i t : Nat) :
    List Callback → Except PyError (List Callback)
  | [] => .ok []
  | cb :: rest =>
      match patchCallback mn i t cb with
      | .error err => .error err
      | .ok cb2 =>
          match patchCallbacks mn i t rest with
          | .error err => .error err
          | .ok tail => .ok (cb2 :: tail)

/-- The callback-list construction of `InstanceExecution.fit`: if the caller
supplied a (truthy) callbacks list, deep-copy it, patch TensorBoard log dirs,
and append the tuner callback; otherwise the list is just the tuner
callback. -/
def buildCallbacks (e : ExecState) (kw : Kwargs) : Except PyError (List Callback) :=
  if kw.callbacks.isEmpty then .ok [tunerCallback]
  else
    match patchCallbacks e.model_name e.idx e.ts kw.callbacks with
    | .error err => .error err
    | .ok patched => .ok (patched ++ [tunerCallback])

/-- `InstanceExecution.fit(self, x, y, **kwargs)`: builds the callback list
(see `buildCallbacks`), then dispatches on `self.keras_function`:
`'fit'` → `self.model.fit(x, y, **kwargs)`;
`'generator'` → `self.model.fit_generator(x, **kwargs)`;
otherwise the source line `Exception("Unknown keras function requested ",
self.keras_function)` constructs an exception object without `raise`, so
control falls through to `return results` where the local `results` was
never bound, raising `UnboundLocalError`. -/
def InstanceExecution.fit (e : ExecState) (x : Nat) (y : List Nat) (kw : Kwargs) :
    Except PyError TrainingCall :=
  match buildCallbacks e kw with
  | .error err => .error err
  | .ok callbacks =>
      if e.keras_function = "fit" then
        .ok { generator_mode := false, exec_idx := e.idx, exec_ts := e.ts,
              x := x, y := some y, callbacks := callbacks,
              initial_epoch := kw.initial_epoch,
              validation_data := kw.validation_data }
      else if e.keras_function = "generator" then
        .ok { generator_mode := true, exec_idx := e.idx, exec_ts := e.ts,
              x := x, y := none, callbacks := callbacks,
              initial_epoch := kw.initial_epoch,
              validation_data := kw.validation_data }
      else
        .error .unboundLocal

/-- Python `min(data)`: `ValueError` on an empty sequence. -/
def pyMin : List ℚ → Except PyError ℚ
  | [] => .error .valueError
  | x :: xs => .ok (xs.foldl min x)

/-- Python `max(data)`: `ValueError` on an empty sequence. -/
def pyMax : List ℚ → Except PyError ℚ
  | [] => .error .valueError
  | x :: xs => .ok (xs.foldl max x)

/-- The metric-recording loop of `InstanceExecution.record_results`:
for every `(metric, data)` item of the history dict, store
`{'min': min(data), 'max': max(data)}`. -/
def recordMetrics : List (Metric × List ℚ) → Except PyError (List (Metric × (ℚ × ℚ)))
  | [] => .ok []
  | (m, data) :: rest =>
      match pyMin data with
      | .error err => .error err
      | .ok mn =>
          match pyMax data with
          | .error err => .error err
          | .ok mx =>
              match recordMetrics rest with
              | .error err => .error err
              | .ok tail => .ok ((m, (mn, mx)) :: tail)

/-- `InstanceExecution.record_results(self, results)`: stores
`self.history = results.history`, sets `self.num_epochs =
len(self.history)` — the size of the history *dict*, i.e. its number of
metric keys — refreshes the timestamp, and records per-metric `{min, max}`.
Model saving is delegated to external collaborators and not modelled. -/
def InstanceExecution.record_results (e : ExecState) (results : KerasHistory)
    (now : Nat) : Except PyError ExecState :=
  match recordMetrics results.history with
  | .error err => .error err
  | .ok metrics =>
      .ok { e with
            history := results.history
            num_epochs := (results.history.length : Int)
            ts := now
            metrics := metrics }

/-- A trainable weight tensor: an object identity and a parameter count. -/
structure Weight where
  uid : Nat
  params : Nat
  deriving DecidableEq

/-- `K.count_params(p)`. -/
def count_params (w : Weight) : Nat := w.params

/-- A Keras model, as far as `Instance.__compute_model_size` inspects it. -/
structure Model where
  trainable_weights : List Weight
  deriving DecidableEq

/-- `Instance.__compute_model_size`:
`np.sum([K.count_params(p) for p in set(model.trainable_weights)])` —
the sum of parameter counts over the deduplicated weight list (Python's
`set` keeps one representative of each equal weight object). -/
def compute_model_size (m : Model) : Nat :=
  (m.trainable_weights.dedup.map count_params).sum

/-- The state of an `Instance` object, restricted to the fields the claims
touch. `key_metrics` is a list of (metric name, direction) pairs. -/
structure InstanceState where
  idx : Nat
  model : Model
  training_size : Int
  validation_size : Nat
  executions : List ExecState
  model_size : Nat
  key_metrics : List (Metric × String)
  keras_function : String
  deriving DecidableEq

/-- `Instance.__init__`: stores the inputs, sets `training_size = -1`,
`validation_size = 0`, an empty execution list, and computes `model_size`
once via `__compute_model_size`. -/
def mkInstance (idx : Nat) (model : Model) (key_metrics : List (Metric × String))
    (keras_function : String) : InstanceState :=
  { idx := idx, model := model, training_size := -1, validation_size := 0,
    executions := [], model_size := compute_model_size model,
    key_metrics := key_metrics, keras_function := keras_function }

/-- `Instance.__new_execution`: constructs a fresh `InstanceExecution` from
the instance's model and configuration and appends it to `executions`.
(The display gating only controls console printing and is not modelled.) -/
def Instance.new_execution (s : InstanceState) (now : Nat) :
    InstanceState × ExecState :=
  let e := mkInstanceExecution s.idx now s.keras_function
  ({ s with executions := s.executions ++ [e] }, e)

/-- `Instance.fit(self, x, y, resume_execution=False, **kwargs)`: records
`training_size = len(y)` and, when `validation_data` is truthy,
`validation_size = len(validation_data[1])`; then either resumes the last
execution — `execution.fit(x, y, initial_epoch=execution.num_epochs,
**kwargs)`, a `TypeError` if the caller also passed `initial_epoch` — or
creates and trains a new execution; finally calls
`execution.record_results(results)` on the raw history returned by the
training oracle and returns it (together with the reified training call). -/
def Instance.fit (train : TrainingCall → KerasHistory) (s0 : InstanceState)
    (x : Nat) (y : List Nat) (resume_execution : Bool) (kw : Kwargs)
    (now : Nat) :
    Except PyError (InstanceState × KerasHistory × TrainingCall) :=
  let s : InstanceState :=
    { s0 with
      training_size := (y.length : Int)
      validation_size :=
        match kw.validation_data with
        | some vd => vd.2.length
        | none => s0.validation_size }
  if h : resume_execution = true ∧ s.executions ≠ [] then
    let e := s.executions.getLast h.2
    if kw.initial_epoch.isSome then .error .typeError
    else
      match InstanceExecution.fit e x y
          { kw with initial_epoch := some e.num_epochs } with
      | .error err => .error err
      | .ok call =>
          let results := train call
          match InstanceExecution.record_results e results now with
          | .error err => .error err
          | .ok e2 =>
              .ok ({ s with executions := s.executions.dropLast ++ [e2] },
                   results, call)
  else
    let p := Instance.new_execution s now
    match InstanceExecution.fit p.2 x y kw with
    | .error err => .error err
    | .ok call =>
        let results := train call
        match InstanceExecution.record_results p.2 results now with
        | .error err => .error err
        | .ok e2 =>
            .ok ({ p.1 with executions := p.1.executions.dropLast ++ [e2] },
                 results, call)

/-- One step of the `exec_metrics` collection:
`exec_metrics[metric][direction].append(v)` on the two-level
`defaultdict(lambda: defaultdict(list))`. -/
def addVal (d : List (Metric × List (String × List ℚ))) (m : Metric)
    (dir : String) (v : ℚ) : List (Metric × List (String × List ℚ)) :=
  updD d m [] (fun inner => updD inner dir [] (fun l => l ++ [v]))

/-- The per-execution body of the collection loop in
`Instance.record_results`: for every `(metric, data)` of
`execution.metrics`, append the execution's own min to
`exec_metrics[metric]['min']` and its own max to
`exec_metrics[metric]['max']`. -/
def collectExec (d : List (Metric × List (String × List ℚ))) (e : ExecState) :
    List (Metric × List (String × List ℚ)) :=
  e.metrics.foldl (fun d p => addVal (addVal d p.1 "min" p.2.1) p.1 "max" p.2.2) d

/-- The full `exec_metrics` collection over `self.executions`, in order. -/
def collectExecMetrics (execs : List ExecState) :
    List (Metric × List (String × List ℚ)) :=
  execs.foldl collectExec []

/-- `np.min` (0 on the empty list, which the source never hits). -/
def npMin : List ℚ → ℚ
  | [] => 0
  | x :: xs => xs.foldl min x

/-- `np.max` (0 on the empty list, which the source never hits). -/
def npMax : List ℚ → ℚ
  | [] => 0
  | x :: xs => xs.foldl max x

/-- `np.mean`: sum divided by length. -/
def npMean (l : List ℚ) : ℚ := l.sum / (l.length : ℚ)

/-- `np.median`: sort ascending, then the middle element (odd length) or the
average of the two middle elements (even length). -/
def npMedian (l : List ℚ) : ℚ :=
  let s := List.insertionSort (· ≤ ·) l
  if l.length % 2 = 1 then s.getD (l.length / 2) 0
  else (s.getD (l.length / 2 - 1) 0 + s.getD (l.length / 2) 0) / 2

/-- An aggregate statistics record `{min, max, mean, median}`. -/
structure Stats where
  min : ℚ
  max : ℚ
  mean : ℚ
  median : ℚ
  deriving DecidableEq

/-- The aggregation applied to one collected per-direction value sequence:
`{"min": np.min(data), "max": np.max(data), "mean": np.mean(data),
"median": np.median(data)}`. -/
def statsOf (data : List ℚ) : Stats :=
  { min := npMin data, max := npMax data, mean := npMean data,
    median := npMedian data }

/-- The aggregation loop of `Instance.record_results`: for every metric and
every direction of `exec_metrics`, compute the four statistics. -/
def aggregateMetrics (em : List (Metric × List (String × List ℚ))) :
    List (Metric × List (String × Stats)) :=
  em.map (fun p => (p.1, p.2.map (fun q => (q.1, statsOf q.2))))

/-- The per-execution detail record built by `Instance.record_results`
(restricted to the embedded fields). -/
structure ExecutionInfo where
  num_epochs : Int
  history : List (Metric × List ℚ)
  deriving DecidableEq

/-- The aggregate report assembled by `Instance.record_results` (restricted
to the claim-relevant parts: per-execution details, aggregate metrics, and
the key-metrics summary). -/
structure Report where
  executions : List ExecutionInfo
  metrics : List (Metric × List (String × Stats))
  key_metrics : List (Metric × ℚ)
  deriving DecidableEq

/-- `Instance.record_results(self)`: collects every execution's per-metric
`{min, max}` into `exec_metrics`, builds the per-execution detail list,
aggregates each collected sequence into `{min, max, mean, median}`, and
copies, for each configured key metric present in the aggregate, its median
into the top-level key-metrics summary. JSON serialization and persistence
are delegated to external collaborators and not modelled. -/
def Instance.record_results (s : InstanceState) : Report :=
  let em := collectExecMetrics s.executions
  let execInfos := s.executions.map (fun e =>
    { num_epochs := e.num_epochs, history := e.history : ExecutionInfo })
  let metrics := aggregateMetrics em
  let km := s.key_metrics.foldl (fun acc tm =>
    match alookup metrics tm.1 with
    | some dirs => acc ++ [(tm.1, ((alookup dirs tm.2).getD (statsOf [])).median)]
    | none => acc) []
  { executions := execInfos, metrics := metrics, key_metrics := km }

/-- Two-level dict lookup `d[m][k]` as an `Option`. -/
def lookup2 {β : Type} (d : List (String × List (String × β))) (m k : String) :
    Option β :=
  (alookup d m).bind (fun inner => alookup inner k)

/-- Selector for a direction: the recorded per-execution min for `"min"`,
the recorded per-execution max otherwise. -/
def dirSel (dir : String) (p : ℚ × ℚ) : ℚ := if dir = "min" then p.1 else p.2

/-- Claim-side description of the collected sequence for metric `m` and
direction `dir`: across all executions in order, that execution's own
recorded per-metric min (respectively max). -/
def collectedSeq (execs : List ExecState) (m : Metric) (dir : String) :
    List ℚ :=
  execs.filterMap (fun e => (alookup e.metrics m).map (dirSel dir))

/-! ### Concrete fixtures used by the witnesses -/

/-- Empty keyword arguments: no callbacks, no initial epoch, no
validation data. -/
def kwEmpty : Kwargs :=
  { callbacks := [], initial_epoch := none, validation_data := none }

/-- A recorded execution whose own metric minimum for `"acc"` is `1/2`. -/
def witExec1 : ExecState :=
  { ts := 1, idx := 0, keras_function := "fit", model_name := none,
    num_epochs := 2, history := [], metrics := [("acc", (1/2, 9/10))] }

/-- A recorded execution whose own metric minimum for `"acc"` is `7/10`. -/
def witExec2 : ExecState :=
  { ts := 2, idx := 0, keras_function := "fit", model_name := none,
    num_epochs := 2, history := [], metrics := [("acc", (7/10, 1))] }

/-- An instance with two recorded executions, matching the spec's
aggregation example. -/
def witInstance : InstanceState :=
  { idx := 0, model := { trainable_weights := [] }, training_size := -1,
    validation_size := 0, executions := [witExec1, witExec2], model_size := 0,
    key_metrics := [("acc", "max")], keras_function := "fit" }

/-- A three-epoch single-metric history. -/
def witHist : KerasHistory := { history := [("loss", [3, 1, 2])] }

/-- The execution state produced by recording `witHist` on a fresh
execution at time 4. -/
def witRecorded : ExecState :=
  { ts := 4, idx := 0, keras_function := "fit", model_name := none,
    num_epochs := 1, history := [("loss", [3, 1, 2])],
    metrics := [("loss", (1, 3))] }

/-- An instance with no executions but a configured key metric. -/
def witInstanceEmpty : InstanceState :=
  { idx := 0, model := { trainable_weights := [] }, training_size := -1,
    validation_size := 0, executions := [], model_size := 0,
    key_metrics := [("loss", "min")], keras_function := "fit" }

/-- A prior execution with two recorded epochs, for the resume witness. -/
def witPrior : ExecState :=
  { ts := 1, idx := 0, keras_function := "fit", model_name := none,
    num_epochs := 2, history := [], metrics := [] }

/-- An instance holding `witPrior` as its only execution. -/
def witInstanceOne : InstanceState :=
  { idx := 0, model := { trainable_weights := [] }, training_size := -1,
    validation_size := 0, executions := [witPrior], model_size := 0,
    key_metrics := [], keras_function := "fit" }

/-- A constant training oracle returning a two-epoch history. -/
def witTrain : TrainingCall → KerasHistory :=
  fun _ => { history := [("loss", [4, 2])] }

/-- The outcome of resuming `witInstanceOne` with `witTrain` at time 9. -/
def witResumeOut : InstanceState × KerasHistory × TrainingCall :=
  ({ witInstanceOne with
     training_size := 1
     executions := [{ ts := 9, idx := 0, keras_function := "fit",
                      model_name := none, num_epochs := 1,
                      history := [("loss", [4, 2])],
                      metrics := [("loss", (2, 4))] }] },
   { history := [("loss", [4, 2])] },
   { generator_mode := false, exec_idx := 0, exec_ts := 1, x := 1,
     y := some [5], callbacks := [tunerCallback], initial_epoch := some 2,
     validation_data := none })

/-- The outcome of fitting `witInstanceEmpty` (resume requested but no
prior execution) with `witTrain` at time 9. -/
def witNewOut : InstanceState × KerasHistory × TrainingCall :=
  ({ witInstanceEmpty with
     training_size := 1
     executions := [{ ts := 9, idx := 0, keras_function := "fit",
                      model_name := none, num_epochs := 1,
                      history := [("loss", [4, 2])],
                      metrics := [("loss", (2, 4))] }] },
   { history := [("loss", [4, 2])] },
   { generator_mode := false, exec_idx := 0, exec_ts := 9, x := 1,
     y := some [5], callbacks := [tunerCallback], initial_epoch := none,
     validation_data := none })

/-! ### Association-list and fold lemmas -/

theorem alookup_updD_self {β : Type} (d : List (String × β)) (k : String)
    (d0 : β) (f : β → β) :
    alookup (updD d k d0 f) k = some (f ((alookup d k).getD d0)) := by
  induction d with
  | nil => simp [updD, alookup]
  | cons p rest ih =>
      obtain ⟨k', v⟩ := p
      by_cases hk : k' = k
      · simp [updD, alookup, hk]
      · simp [updD, alookup, hk, ih]

theorem alookup_updD_ne {β : Type} (d : List (String × β)) (k k' : String)
    (h : k' ≠ k) (d0 : β) (f : β → β) :
    alookup (updD d k d0 f) k' = alookup d k' := by
  induction d with
  | nil => simp [updD, alookup, Ne.symm h]
  | cons p rest ih =>
      obtain ⟨k'', v⟩ := p
      by_cases hk : k'' = k
      · subst hk
        simp [updD, alookup, Ne.symm h]
      · simp [updD, alookup, hk, ih]

theorem alookup_eq_none_of_not_mem {β : Type} (d : List (String × β)) (k : String)
    (h : k ∉ d.map Prod.fst) : alookup d k = none := by
  induction d with
  | nil => rfl
  | cons p rest ih =>
      simp only [List.map_cons, List.mem_cons] at h
      push_neg at h
      simp [alookup, Ne.symm h.1, ih h.2]

theorem lookup2_addVal_self (d : List (Metric × List (String × List ℚ)))
    (m : Metric) (dir : String) (v : ℚ) :
    lookup2 (addVal d m dir v) m dir = some ((lookup2 d m dir).getD [] ++ [v]) := by
  unfold lookup2 addVal
  rw [alookup_updD_self]
  cases hm : alookup d m with
  | none => simp [hm, alookup_updD_self, alookup]
  | some inner => simp [hm, alookup_updD_self]

theorem lookup2_addVal_ne_metric (d : List (Metric × List (String × List ℚ)))
    (m m' : Metric) (dir dir' : String) (v : ℚ) (h : m' ≠ m) :
    lookup2 (addVal d m dir v) m' dir' = lookup2 d m' dir' := by
  unfold lookup2 addVal
  rw [alookup_updD_ne _ _ _ h]

theorem lookup2_addVal_ne_dir (d : List (Metric × List (String × List ℚ)))
    (m : Metric) (dir dir' : String) (v : ℚ) (h : dir' ≠ dir) :
    lookup2 (addVal d m dir v) m dir' = lookup2 d m dir' := by
  unfold lookup2 addVal
  rw [alookup_updD_self]
  cases hm : alookup d m with
  | none => simp [hm, alookup_updD_ne _ _ _ h, alookup, Ne.symm h]
  | some inner => simp [hm, alookup_updD_ne _ _ _ h]

theorem lookup2_metricsFold_not_mem (ms : List (Metric × (ℚ × ℚ)))
    (d : List (Metric × List (String × List ℚ))) (m : Metric) (dir : String)
    (h : m ∉ ms.map Prod.fst) :
    lookup2 (ms.foldl
      (fun d p => addVal (addVal d p.1 "min" p.2.1) p.1 "max" p.2.2) d) m dir =
    lookup2 d m dir := by
  induction ms generalizing d with
  | nil => rfl
  | cons p rest ih =>
      simp only [List.map_cons, List.mem_cons] at h
      push_neg at h
      rw [List.foldl_cons, ih _ h.2,
        lookup2_addVal_ne_metric _ _ _ _ _ _ h.1,
        lookup2_addVal_ne_metric _ _ _ _ _ _ h.1]

theorem lookup2_metricsFold (ms : List (Metric × (ℚ × ℚ)))
    (hnd : (ms.map Prod.fst).Nodup)
    (d : List (Metric × List (String × List ℚ))) (m : Metric) (dir : String)
    (hdir : dir = "min" ∨ dir = "max") :
    lookup2 (ms.foldl
      (fun d p => addVal (addVal d p.1 "min" p.2.1) p.1 "max" p.2.2) d) m dir =
    (match alookup ms m with
     | some p => some ((lookup2 d m dir).getD [] ++ [dirSel dir p])
     | none => lookup2 d m dir) := by
  induction ms generalizing d with
  | nil => rfl
  | cons p rest ih =>
      obtain ⟨k, mn, mx⟩ := p
      simp only [List.map_cons, List.nodup_cons] at hnd
      rw [List.foldl_cons]
      by_cases hk : k = m
      · subst hk
        rw [lookup2_metricsFold_not_mem _ _ _ _ hnd.1]
        rcases hdir with hdir | hdir <;> subst hdir
        · rw [lookup2_addVal_ne_dir _ _ _ _ _ (by simp),
            lookup2_addVal_self]
          simp [alookup, dirSel]
        · rw [lookup2_addVal_self,
            lookup2_addVal_ne_dir _ _ _ _ _ (by simp)]
          simp [alookup, dirSel]
      · rw [ih hnd.2]
        have hne : m ≠ k := fun hh => hk hh.symm
        rw [lookup2_addVal_ne_metric _ _ _ _ _ _ hne,
          lookup2_addVal_ne_metric _ _ _ _ _ _ hne]
        simp [alookup, hk]

theorem lookup2_collectFold (execs : List ExecState)
    (hnd : ∀ e ∈ execs, ((e.metrics.map Prod.fst).Nodup))
    (d : List (Metric × List (String × List ℚ))) (m : Metric) (dir : String)
    (hdir : dir = "min" ∨ dir = "max") :
    lookup2 (execs.foldl collectExec d) m dir =
    (if collectedSeq execs m dir = [] then lookup2 d m dir
     else some ((lookup2 d m dir).getD [] ++ collectedSeq execs m dir)) := by
  induction execs generalizing d with
  | nil => simp [collectedSeq]
  | cons e rest ih =>
      have hm' : lookup2 (collectExec d e) m dir =
          (match alookup e.metrics m with
           | some p => some ((lookup2 d m dir).getD [] ++ [dirSel dir p])
           | none => lookup2 d m dir) :=
        lookup2_metricsFold e.metrics (hnd e (List.mem_cons_self _ _)) d m dir hdir
      rw [List.foldl_cons, ih (fun e' he' => hnd e' (List.mem_cons_of_mem _ he'))]
      cases ha : alookup e.metrics m with
      | none =>
          rw [ha] at hm'
          dsimp only at hm'
          have hcs : collectedSeq (e :: rest) m dir = collectedSeq rest m dir := by
            simp [collectedSeq, List.filterMap_cons, ha]
          rw [hcs, hm']
      | some p =>
          rw [ha] at hm'
          dsimp only at hm'
          have hcs : collectedSeq (e :: rest) m dir =
              dirSel dir p :: collectedSeq rest m dir := by
            simp [collectedSeq, List.filterMap_cons, ha]
          rw [hcs, hm']
          by_cases hr : collectedSeq rest m dir = []
          · simp [hr]
          · rw [if_neg hr, if_neg (List.cons_ne_nil _ _)]
            simp [List.append_assoc]

theorem alookup_map_snd {β γ : Type} (l : List (String × β)) (g : β → γ)
    (k : String) :
    alookup (l.map (fun p => (p.1, g p.2))) k = (alookup l k).map g := by
  induction l with
  | nil => rfl
  | cons p rest ih =>
      by_cases hk : p.1 = k
      · simp [alookup, hk]
      · simp [alookup, hk, ih]

theorem lookup2_aggregate (em : List (Metric × List (String × List ℚ)))
    (m : Metric) (dir : String) :
    lookup2 (aggregateMetrics em) m dir = (lookup2 em m dir).map statsOf := by
  unfold lookup2 aggregateMetrics
  rw [alookup_map_snd]
  cases hm : alookup em m with
  | none => rfl
  | some inner => simp [alookup_map_snd]

theorem foldl_const {α β : Type} (l : List β) (a : α) (f : α → β → α)
    (hf : ∀ acc b, f acc b = acc) : l.foldl f a = a := by
  induction l generalizing a with
  | nil => rfl
  | cons b t ih => rw [List.foldl_cons, hf, ih]

theorem foldl_min_mem (x : ℚ) (xs : List ℚ) : xs.foldl min x ∈ x :: xs := by
  induction xs generalizing x with
  | nil => simp
  | cons y ys ih =>
      rw [List.foldl_cons]
      rcases List.mem_cons.mp (ih (min x y)) with hm | hm
      · rcases min_choice x y with hc | hc <;> rw [hm, hc] <;> simp
      · simp [hm]

theorem foldl_min_le (x : ℚ) (xs : List ℚ) : ∀ v ∈ x :: xs, xs.foldl min x ≤ v := by
  induction xs generalizing x with
  | nil =>
      intro v hv
      rw [List.mem_singleton] at hv
      rw [hv]
      exact le_refl x
  | cons y ys ih =>
      intro v hv
      rw [List.foldl_cons]
      have hbase : ys.foldl min (min x y) ≤ min x y :=
        ih (min x y) (min x y) (List.mem_cons_self _ _)
      rcases List.mem_cons.mp hv with h1 | hv'
      · rw [h1]
        exact le_trans hbase (min_le_left _ _)
      · rcases List.mem_cons.mp hv' with h2 | hv''
        · rw [h2]
          exact le_trans hbase (min_le_right _ _)
        · exact ih (min x y) v (List.mem_cons_of_mem _ hv'')

theorem foldl_max_mem (x : ℚ) (xs : List ℚ) : xs.foldl max x ∈ x :: xs := by
  induction xs generalizing x with
  | nil => simp
  | cons y ys ih =>
      rw [List.foldl_cons]
      rcases List.mem_cons.mp (ih (max x y)) with hm | hm
      · rcases max_choice x y with hc | hc <;> rw [hm, hc] <;> simp
      · simp [hm]

theorem le_foldl_max (x : ℚ) (xs : List ℚ) : ∀ v ∈ x :: xs, v ≤ xs.foldl max x := by
  induction xs generalizing x with
  | nil =>
      intro v hv
      rw [List.mem_singleton] at hv
      rw [hv]
      exact le_refl x
  | cons y ys ih =>
      intro v hv
      rw [List.foldl_cons]
      have hbase : max x y ≤ ys.foldl max (max x y) :=
        ih (max x y) (max x y) (List.mem_cons_self _ _)
      rcases List.mem_cons.mp hv with h1 | hv'
      · rw [h1]
        exact le_trans (le_max_left _ _) hbase
      · rcases List.mem_cons.mp hv' with h2 | hv''
        · rw [h2]
          exact le_trans (le_max_right _ _) hbase
        · exact ih (max x y) v (List.mem_cons_of_mem _ hv'')

theorem toFinset_dedup' {α : Type} [DecidableEq α] (l : List α) :
    l.dedup.toFinset = l.toFinset := by
  ext a
  simp [List.mem_dedup]

theorem recordMetrics_lookup (hs : List (Metric × List ℚ))
    (ms : List (Metric × (ℚ × ℚ))) (hok : recordMetrics hs = .ok ms)
    (m : Metric) (data : List ℚ) (hm : alookup hs m = some data) :
    ∃ x xs, data = x :: xs ∧
      alookup ms m = some (xs.foldl min x, xs.foldl max x) := by
  induction hs generalizing ms with
  | nil => simp [alookup] at hm
  | cons p rest ih =>
      obtain ⟨k, d⟩ := p
      cases d with
      | nil => simp [recordMetrics, pyMin] at hok
      | cons x xs =>
          rw [recordMetrics] at hok
          cases hrec : recordMetrics rest with
          | error err => simp [hrec, pyMin, pyMax] at hok
          | ok tail =>
              simp only [hrec, pyMin, pyMax, Except.ok.injEq] at hok
              subst hok
              by_cases hk : k = m
              · subst hk
                simp [alookup] at hm
                exact ⟨x, xs, hm.symm, by simp [alookup]⟩
              · simp only [alookup, if_neg hk] at hm
                obtain ⟨x', xs', hd, hl⟩ := ih tail hrec hm
                exact ⟨x', xs', hd, by simp [alookup, hk, hl]⟩

theorem patchCallbacks_no_tensorboard (mn : Option String) (i t : Nat)
    (cbs : List Callback) (h : ∀ cb ∈ cbs, cb.tensorboard_like = false) :
    patchCallbacks mn i t cbs = .ok cbs := by
  induction cbs with
  | nil => rfl
  | cons cb rest ih =>
      have hcb : patchCallback mn i t cb = .ok cb := by
        unfold patchCallback
        rw [h cb (List.mem_cons_self _ _)]
        simp
      rw [patchCallbacks, hcb, ih (fun c hc => h c (List.mem_cons_of_mem _ hc))]

theorem fit_call_fields (e : ExecState) (x : Nat) (y : List Nat) (kw : Kwargs)
    (c : TrainingCall) (h : InstanceExecution.fit e x y kw = .ok c) :
    c.exec_idx = e.idx ∧ c.exec_ts = e.ts ∧ c.initial_epoch = kw.initial_epoch ∧
      c.validation_data = kw.validation_data := by
  unfold InstanceExecution.fit at h
  cases hb : buildCallbacks e kw with
  | error err => rw [hb] at h; simp at h
  | ok callbacks =>
      rw [hb] at h
      dsimp only at h
      by_cases hf : e.keras_function = "fit"
      · rw [if_pos hf] at h
        obtain rfl : _ = c := Except.ok.inj h
        exact ⟨rfl, rfl, rfl, rfl⟩
      · by_cases hg : e.keras_function = "generator"
        · rw [if_neg hf, if_pos hg] at h
          obtain rfl : _ = c := Except.ok.inj h
          exact ⟨rfl, rfl, rfl, rfl⟩
        · rw [if_neg hf, if_neg hg] at h
          simp at h

/-! ### Claim theorems -/

/-- Claim C1 (code bug at the source): for a `keras_function` value other
than `'fit'` and `'generator'` (here `'predict'`), `InstanceExecution.fit`
does not raise the configuration `Exception` that the source constructs —
the `Exception(...)` call lacks a `raise` — and instead fails with
`UnboundLocalError` at `return results`; no training entry point is invoked
and no training result is produced. -/
theorem fit_unknown_keras_function_not_raised :
    InstanceExecution.fit (mkInstanceExecution 0 5 "predict") 1 [1] kwEmpty =
      .error .unboundLocal := rfl

/-- Claim C2 (code bug at the source): `num_epochs` is `-1` before
recording, but `record_results` sets it to `len(self.history)` — the number
of metric keys of the history dict (here 1) — not the number of recorded
epochs (here 3, the length of the per-epoch value sequence). -/
theorem record_results_num_epochs_counts_metric_keys :
    (mkInstanceExecution 0 0 "fit").num_epochs = -1 ∧
    InstanceExecution.record_results (mkInstanceExecution 0 0 "fit")
        { history := [("loss", [1, 2, 3])] } 9 =
      .ok { ts := 9, idx := 0, keras_function := "fit", model_name := none,
            num_epochs := 1, history := [("loss", [1, 2, 3])],
            metrics := [("loss", (1, 3))] } ∧
    ([("loss", [1, 2, 3])] : List (Metric × List ℚ)).map (fun p => p.2.length)
      = [3] :=
  ⟨rfl, rfl, rfl⟩

/-- Claim C5: after a successful `InstanceExecution.record_results`, every
metric key of the history maps in `metrics` to exactly the pair of the
minimum and the maximum of that metric's per-epoch value sequence. -/
theorem execution_record_results_metric_minmax (e : ExecState)
    (res : KerasHistory) (now : Nat) (e2 : ExecState)
    (hok : InstanceExecution.record_results e res now = .ok e2)
    (m : Metric) (data : List ℚ) (hm : alookup res.history m = some data) :
    ∃ mn mx, alookup e2.metrics m = some (mn, mx) ∧
      mn ∈ data ∧ (∀ v ∈ data, mn ≤ v) ∧ mx ∈ data ∧ (∀ v ∈ data, v ≤ mx) := by
  unfold InstanceExecution.record_results at hok
  cases hrm : recordMetrics res.history with
  | error err => rw [hrm] at hok; simp at hok
  | ok ms =>
      rw [hrm] at hok
      obtain rfl : _ = e2 := Except.ok.inj hok
      obtain ⟨x, xs, rfl, hl⟩ := recordMetrics_lookup res.history ms hrm m data hm
      exact ⟨xs.foldl min x, xs.foldl max x, hl, foldl_min_mem x xs,
        foldl_min_le x xs, foldl_max_mem x xs, le_foldl_max x xs⟩

/-- Witness for C5: recording the history `{'loss': [3, 1, 2]}` yields a
`metrics['loss']` entry that is the minimum and maximum of `[3, 1, 2]`. -/
theorem execution_record_results_metric_minmax_witness :
    ∃ mn mx, alookup witRecorded.metrics "loss" = some (mn, mx) ∧
      mn ∈ ([3, 1, 2] : List ℚ) ∧ (∀ v ∈ ([3, 1, 2] : List ℚ), mn ≤ v) ∧
      mx ∈ ([3, 1, 2] : List ℚ) ∧ (∀ v ∈ ([3, 1, 2] : List ℚ), v ≤ mx) :=
  execution_record_results_metric_minmax (mkInstanceExecution 0 0 "fit")
    witHist 4 witRecorded rfl "loss" [3, 1, 2] rfl

/-- Claim C6: `Instance.record_results` on an instance with no executions
does not fail and produces a report with empty per-execution details, an
empty aggregate metrics mapping, and an empty key-metrics summary. -/
theorem record_results_empty_executions (s : InstanceState)
    (he : s.executions = []) :
    Instance.record_results s =
      { executions := [], metrics := [], key_metrics := [] } := by
  unfold Instance.record_results
  rw [he]
  simp only [collectExecMetrics, aggregateMetrics, List.foldl_nil,
    List.map_nil, Report.mk.injEq]
  refine ⟨trivial, trivial, ?_⟩
  exact foldl_const _ _ _ (fun acc tm => rfl)

/-- Witness for C6 on a concrete instance with a configured key metric but
no executions. -/
theorem record_results_empty_executions_witness :
    Instance.record_results witInstanceEmpty =
      { executions := [], metrics := [], key_metrics := [] } :=
  record_results_empty_executions witInstanceEmpty rfl

/-- Claim C7: the `model_size` computed at construction is the sum of
parameter counts over the de-duplicated set of the model's trainable
weights; duplicating (aliasing) every weight leaves the size unchanged. -/
theorem model_size_counts_deduplicated_weights (idx : Nat) (m : Model)
    (km : List (Metric × String)) (kf : String) :
    (mkInstance idx m km kf).model_size =
      m.trainable_weights.toFinset.sum count_params ∧
    (mkInstance idx
        { trainable_weights := m.trainable_weights ++ m.trainable_weights }
        km kf).model_size = (mkInstance idx m km kf).model_size := by
  have hsize : ∀ mo : Model, compute_model_size mo =
      mo.trainable_weights.toFinset.sum count_params := by
    intro mo
    unfold compute_model_size
    rw [← List.sum_toFinset _ (List.nodup_dedup mo.trainable_weights),
      toFinset_dedup']
  constructor
  · exact hsize m
  · show compute_model_size _ = compute_model_size m
    rw [hsize, hsize]
    dsimp only
    rw [List.toFinset_append, Finset.union_self]

/-- Claim C8 (code bug at the source): when the caller's callbacks contain a
TensorBoard callback, `InstanceExecution.fit` raises `AttributeError`
instead of rewriting the log dir, because the suffix string reads
`self.model_name`, an attribute `__init__` never assigns. -/
theorem fit_tensorboard_patch_attribute_error :
    InstanceExecution.fit (mkInstanceExecution 3 7 "fit") 1 [1, 2]
      { callbacks := [{ tensorboard_like := true, log_dir := "logs", tag := 5 }],
        initial_epoch := none, validation_data := none } =
      .error .attributeError := rfl

/-- Claim C9: in generator mode the `y` argument is ignored — two
`InstanceExecution.fit` calls identical except in `y` produce the same
outcome (the same dispatched `fit_generator` call, hence the same result). -/
theorem fit_generator_ignores_y (e : ExecState)
    (hg : e.keras_function = "generator") (x : Nat) (y1 y2 : List Nat)
    (kw : Kwargs) :
    InstanceExecution.fit e x y1 kw = InstanceExecution.fit e x y2 kw := by
  unfold InstanceExecution.fit
  cases buildCallbacks e kw with
  | error err => rfl
  | ok callbacks => simp [hg]

/-- Witness for C9 at a concrete generator-mode execution and two different
`y` arguments. -/
theorem fit_generator_ignores_y_witness :
    InstanceExecution.fit (mkInstanceExecution 2 3 "generator") 1 [1] kwEmpty =
      InstanceExecution.fit (mkInstanceExecution 2 3 "generator") 1 [2, 3]
        kwEmpty :=
  fit_generator_ignores_y (mkInstanceExecution 2 3 "generator") rfl 1 [1]
    [2, 3] kwEmpty

/-- Claim C3: in `Instance.record_results`, every aggregate entry for a
metric and a direction in {'min','max'} equals {min, max, mean, median}
computed over the sequence formed by collecting, across all executions in
order, that execution's own recorded per-metric min (respectively max). -/
theorem record_results_aggregates_execution_minmax (s : InstanceState)
    (hnd : ∀ e ∈ s.executions, ((e.metrics.map Prod.fst).Nodup))
    (m : Metric) (dir : String) (hdir : dir = "min" ∨ dir = "max")
    (st : Stats)
    (hst : lookup2 (Instance.record_results s).metrics m dir = some st) :
    st = statsOf (collectedSeq s.executions m dir) := by
  have hmet : (Instance.record_results s).metrics =
      aggregateMetrics (collectExecMetrics s.executions) := rfl
  rw [hmet, lookup2_aggregate] at hst
  have hfold := lookup2_collectFold s.executions hnd [] m dir hdir
  unfold collectExecMetrics at hst
  rw [hfold] at hst
  by_cases hc : collectedSeq s.executions m dir = []
  · rw [if_pos hc] at hst
    simp [lookup2, alookup] at hst
  · rw [if_neg hc] at hst
    simp only [lookup2, alookup, Option.bind, Option.getD, List.nil_append,
      Option.map_some', Option.some.injEq] at hst
    exact hst.symm

/-- Witness for C3 at the spec's example: per-execution minima
`[1/2, 7/10]` aggregate to `{min: 1/2, max: 7/10, mean: 3/5, median: 3/5}`. -/
theorem record_results_aggregates_execution_minmax_witness :
    ({ min := 1/2, max := 7/10, mean := 3/5, median := 3/5 } : Stats) =
      statsOf (collectedSeq witInstance.executions "acc" "min") :=
  record_results_aggregates_execution_minmax witInstance
    (by
      intro e he
      rcases List.mem_cons.mp he with h1 | h2
      · rw [h1]; decide
      · rcases List.mem_cons.mp h2 with h3 | h4
        · rw [h3]; decide
        · cases h4)
    "acc" "min" (Or.inl rfl) _
    (by
      simp [Instance.record_results, witInstance, witExec1, witExec2,
        collectExecMetrics, collectExec, addVal, updD, aggregateMetrics,
        lookup2, alookup, statsOf, npMin, npMax, npMean, npMedian,
        List.insertionSort, List.orderedInsert, Stats.mk.injEq]
      norm_num)

/-- Claim C4: with `resume_execution = true` and a nonempty execution list,
`Instance.fit` creates no new execution — the executions count and all but
the last entry are unchanged — and dispatches training on the most recently
appended execution, passing `initial_epoch` equal to that execution's
current `num_epochs`, so epoch numbering continues. -/
theorem fit_resume_continues_last_execution
    (train : TrainingCall → KerasHistory) (s : InstanceState) (x : Nat)
    (y : List Nat) (kw : Kwargs) (now : Nat) (elast : ExecState)
    (hlast : s.executions.getLast? = some elast)
    (hie : kw.initial_epoch = none)
    (out : InstanceState × KerasHistory × TrainingCall)
    (hok : Instance.fit train s x y true kw now = .ok out) :
    out.1.executions.length = s.executions.length ∧
    out.1.executions.dropLast = s.executions.dropLast ∧
    out.2.2.exec_idx = elast.idx ∧ out.2.2.exec_ts = elast.ts ∧
    out.2.2.initial_epoch = some elast.num_epochs := by
  have hne : s.executions ≠ [] := by
    intro hcon
    rw [hcon] at hlast
    simp [List.getLast?] at hlast
  have helast : s.executions.getLast hne = elast := by
    rw [List.getLast?_eq_getLast _ hne] at hlast
    exact Option.some.inj hlast
  unfold Instance.fit at hok
  rw [dif_pos (And.intro rfl hne)] at hok
  dsimp only at hok
  rw [hie] at hok
  simp only [Option.isSome_none, Bool.false_eq_true, if_false] at hok
  cases hc : InstanceExecution.fit (s.executions.getLast hne) x y
      { kw with initial_epoch := some (s.executions.getLast hne).num_epochs }
    with
  | error err => rw [hc] at hok; simp at hok
  | ok call =>
      rw [hc] at hok
      dsimp only at hok
      cases hr : InstanceExecution.record_results (s.executions.getLast hne)
          (train call) now with
      | error err => rw [hr] at hok; simp at hok
      | ok e2 =>
          rw [hr] at hok
          obtain rfl : _ = out := Except.ok.inj hok
          obtain ⟨h1, h2, h3, h4⟩ := fit_call_fields _ _ _ _ _ hc
          refine ⟨?_, ?_, ?_, ?_, ?_⟩
          · show (s.executions.dropLast ++ [e2]).length = _
            rw [List.length_append, List.length_dropLast]
            exact Nat.sub_add_cancel (List.length_pos.mpr hne)
          · show (s.executions.dropLast ++ [e2]).dropLast = _
            exact List.dropLast_concat
          · rw [← helast]; exact h1
          · rw [← helast]; exact h2
          · rw [← helast]; exact h3

/-- Witness for C4: resuming an instance holding one prior two-epoch
execution keeps one execution and dispatches with `initial_epoch = 2`. -/
theorem fit_resume_continues_last_execution_witness :
    witResumeOut.1.executions.length = witInstanceOne.executions.length ∧
    witResumeOut.1.executions.dropLast = witInstanceOne.executions.dropLast ∧
    witResumeOut.2.2.exec_idx = witPrior.idx ∧
    witResumeOut.2.2.exec_ts = witPrior.ts ∧
    witResumeOut.2.2.initial_epoch = some witPrior.num_epochs :=
  fit_resume_continues_last_execution witTrain witInstanceOne 1 [5] kwEmpty 9
    witPrior rfl rfl witResumeOut rfl

/-- Claim C10 (implicit): `Instance.fit` with `resume_execution = true` on
an empty execution list behaves exactly as with `resume_execution = false`:
it appends one brand-new execution (with the instance's index, created at
the current time) and dispatches training with the caller's kwargs
unchanged, in particular without adding an `initial_epoch`. -/
theorem fit_resume_empty_executions_falls_back
    (train : TrainingCall → KerasHistory) (s : InstanceState) (x : Nat)
    (y : List Nat) (kw : Kwargs) (now : Nat) (he : s.executions = []) :
    Instance.fit train s x y true kw now =
      Instance.fit train s x y false kw now ∧
    ∀ out, Instance.fit train s x y true kw now = .ok out →
      (∃ e2, out.1.executions = s.executions ++ [e2]) ∧
      out.2.2.initial_epoch = kw.initial_epoch ∧
      out.2.2.exec_idx = s.idx ∧ out.2.2.exec_ts = now := by
  constructor
  · unfold Instance.fit
    rw [dif_neg (by simp [he]), dif_neg (by simp)]
  · intro out hok
    unfold Instance.fit at hok
    rw [dif_neg (by simp [he])] at hok
    simp only [Instance.new_execution] at hok
    cases hc : InstanceExecution.fit (mkInstanceExecution s.idx now
        s.keras_function) x y kw with
    | error err => rw [hc] at hok; simp at hok
    | ok call =>
        rw [hc] at hok
        dsimp only at hok
        cases hr : InstanceExecution.record_results (mkInstanceExecution s.idx
            now s.keras_function) (train call) now with
        | error err => rw [hr] at hok; simp at hok
        | ok e2 =>
            rw [hr] at hok
            obtain rfl : _ = out := Except.ok.inj hok
            obtain ⟨h1, h2, h3, h4⟩ := fit_call_fields _ _ _ _ _ hc
            refine ⟨⟨e2, ?_⟩, h3, h1, h2⟩
            show ((s.executions ++ [_]).dropLast ++ [e2]) = _
            rw [List.dropLast_concat]

/-- Witness for C10: on an instance with no executions, resume and
non-resume fits agree, one execution is appended, and the dispatch carries
no initial epoch. -/
theorem fit_resume_empty_executions_falls_back_witness :
    Instance.fit witTrain witInstanceEmpty 1 [5] true kwEmpty 9 =
      Instance.fit witTrain witInstanceEmpty 1 [5] false kwEmpty 9 ∧
    ((∃ e2, witNewOut.1.executions = witInstanceEmpty.executions ++ [e2]) ∧
      witNewOut.2.2.initial_epoch = kwEmpty.initial_epoch ∧
      witNewOut.2.2.exec_idx = witInstanceEmpty.idx ∧
      witNewOut.2.2.exec_ts = 9) :=
  ⟨(fit_resume_empty_executions_falls_back witTrain witInstanceEmpty 1 [5]
      kwEmpty 9 rfl).1,
   (fit_resume_empty_executions_falls_back witTrain witInstanceEmpty 1 [5]
      kwEmpty 9 rfl).2 witNewOut rfl⟩

end KerasTuner
